import Mathlib

/-!
# Verification of the d21_voting program

A shallow embedding of the `d21_voting` Anchor program
(`programs/d21_voting/src`): the data records of `states.rs`, the error
enumeration of `errors.rs`, and the three instruction handlers
`initialize_poll`, `add_option` and `cast_vote`, together with the Anchor
account constraints declared on their `Accounts` structs.

Modelling conventions:
* `Pubkey` is modelled as `Nat`; `Pubkey::default()` (the all-zero key) is
  `0`, and real accounts live at nonzero keys.
* Machine integers (`u8`, `u16`, `u32`, `u64`) are modelled as `Nat`;
  `checked_add(1)` is modelled by an explicit bound test against the
  type's maximum, and `u16::saturating_add(1)` by `min (i + 1) 65535`.
  The intermediate `u16` arithmetic of the ratio gate is exact on `Nat`
  because both operands come from `u8` fields (`2 * (m + 1) ≤ 512`).
* Rust `String::len` is UTF-8 byte length, modelled by
  `String.utf8ByteSize`; `trim` and `to_lowercase` are modelled by
  `rustTrim` and `rustToLower` (structural functions over the character
  list).
* The SHA-256 label hash (`hash::hash`, an external library call) is an
  abstract parameter `hashFn : String → Nat` of the operations.
* Fallible handlers return `Except`. Solana commits account mutations only
  when the whole instruction succeeds, so an operation either yields the
  fully updated world (`Except.ok`) or an error and, at the world level,
  no change at all (`runOp`).
* Anchor evaluates account constraints in declaration order before the
  handler body runs: for `AddOption` the poll's `authority` check, then
  its `!ended` check, then `init` of the option account (which fails when
  an account already exists at that address); for `CastVote` the poll's
  `!ended` check, then the option account's poll-binding check, with the
  `init_if_needed` voter and receipt accounts materialized as zero-filled
  records when absent.
-/

/-- The `D21Error` enumeration of `errors.rs`. -/
inductive D21Error where
  | VotingNotStarted
  | VotingClosed
  | Unauthorized
  | TitleTooLong
  | DescriptionTooLong
  | LabelTooLong
  | InvalidSentiment
  | OutOfPositiveCredits
  | OutOfNegativeCredits
  | MathOverflow
  | AlreadyVotedThisOption
  | InsufficientPositivesForNegative
  | InvalidPollId
  | PollIdMismatch
  | PlusCreditIsZero
  | MinusCreditIsZero
  | InvalidTimeWindow
  | VotingStarted
  | LabelEmpty
  | LabelAlreadyUsed
  | LabelSeedMismatch
  | PollMismatch
deriving DecidableEq, Repr

/-- A transaction-level error: either a program error from `errors.rs`, or a
runtime failure of account resolution (`init` on an address already in use;
deserializing a non-`init` account that does not exist). -/
inductive TxError where
  | d21 (e : D21Error)
  | accountInUse
  | accountNotFound
deriving DecidableEq, Repr

deriving instance DecidableEq for Except

/-- Model of `Pubkey`: `0` is `Pubkey::default()`. -/
abbrev Pubkey := Nat

/-- Model of Rust `str::trim`: drop leading and trailing whitespace
characters (structurally, over the character list, so that concrete
instances reduce in the kernel). -/
def rustTrim (s : String) : String :=
  String.mk (((s.data.dropWhile Char.isWhitespace).reverse.dropWhile
    Char.isWhitespace).reverse)

/-- Model of Rust `str::to_lowercase`, character by character (the simple
Latin lowering of `Char.toLower`; the labels the program manipulates are
compared only through this map, applied uniformly to both sides). -/
def rustToLower (s : String) : String :=
  String.mk (s.data.map Char.toLower)

/-- The `Poll` account of `states.rs`. -/
structure Poll where
  authority : Pubkey
  poll_id : Nat
  title : String
  description : String
  plus_credits : Nat
  minus_credits : Nat
  start_ts : Int
  end_ts : Int
  options_count : Nat
  ended : Bool
deriving DecidableEq, Repr

/-- The `OptionNode` account of `states.rs`. -/
structure OptionNode where
  poll : Pubkey
  index : Nat
  label : String
  plus_votes : Nat
  minus_votes : Nat
deriving DecidableEq, Repr

/-- The `LabelGuard` account of `states.rs` (`label_hash` is the 32-byte
hash, abstracted to `Nat`). -/
structure LabelGuard where
  poll : Pubkey
  label_hash : Nat
deriving DecidableEq, Repr

/-- The `Voter` credit account of `states.rs`. -/
structure Voter where
  poll : Pubkey
  voter : Pubkey
  used_plus : Nat
  used_minus : Nat
deriving DecidableEq, Repr

/-- The `Receipt` account of `states.rs`. -/
structure Receipt where
  poll : Pubkey
  voter : Pubkey
  option_index : Nat
  sentiment : Int
deriving DecidableEq, Repr

/-- The `PollConfig` argument of `initialize_poll`. -/
structure PollConfig where
  poll_id : Nat
  title : String
  description : String
  plus_credits : Nat
  minus_credits : Nat
  start_ts : Int
  end_ts : Int
deriving DecidableEq, Repr

/-- `MAX_TITLE` of `states.rs`. -/
def MAX_TITLE : Nat := 64

/-- `MAX_DESC` of `states.rs`. -/
def MAX_DESC : Nat := 256

/-- `MAX_LABEL` of `states.rs`. -/
def MAX_LABEL : Nat := 64

/-- `Poll::from_config` of `initialize_poll.rs`. -/
def Poll.from_config (cfg : PollConfig) (authority : Pubkey) : Poll :=
  { authority := authority
    poll_id := cfg.poll_id
    title := cfg.title
    description := cfg.description
    plus_credits := cfg.plus_credits
    minus_credits := cfg.minus_credits
    start_ts := cfg.start_ts
    end_ts := cfg.end_ts
    options_count := 0
    ended := false }

/-- The `initialize_poll` handler of `initialize_poll.rs`: the `require!`
chain, in source order, then `Poll::from_config`. -/
def initializePoll (cfg : PollConfig) (authority : Pubkey) (now : Int) :
    Except TxError Poll :=
  if cfg.poll_id = 0 then .error (.d21 .InvalidPollId)
  else if ¬ cfg.title.utf8ByteSize ≤ MAX_TITLE then .error (.d21 .TitleTooLong)
  else if ¬ cfg.description.utf8ByteSize ≤ MAX_DESC then .error (.d21 .DescriptionTooLong)
  else if ¬ 0 < cfg.plus_credits then .error (.d21 .PlusCreditIsZero)
  else if ¬ cfg.start_ts < cfg.end_ts then .error (.d21 .InvalidTimeWindow)
  else if ¬ now ≤ cfg.start_ts then .error (.d21 .InvalidTimeWindow)
  else .ok (Poll.from_config cfg authority)

/-- Lookup in an association list (newest binding first). -/
def alookup {κ α : Type} [DecidableEq κ] : List (κ × α) → κ → Option α
  | [], _ => none
  | (k', a) :: rest, k => if k = k' then some a else alookup rest k

/-- Insert (or overwrite) a binding in an association list. -/
def ainsert {κ α : Type} [DecidableEq κ] (l : List (κ × α)) (k : κ) (a : α) :
    List (κ × α) :=
  (k, a) :: l

/-- The state of one poll's account neighbourhood: the poll account at key
`pollKey`, and the option / label-guard / voter-credit / receipt accounts
derived from it, each indexed by the seed components that derive its
address (option index; label seed; voter key; option index × voter key). -/
structure World where
  pollKey : Pubkey
  poll : Poll
  options : List (Nat × OptionNode)
  guards : List (Nat × LabelGuard)
  voters : List (Pubkey × Voter)
  receipts : List ((Nat × Pubkey) × Receipt)
deriving DecidableEq, Repr

/-- The world right after a successful `initialize_poll`: the new poll and
no derived accounts. -/
def World.init (pollKey : Pubkey) (poll : Poll) : World :=
  ⟨pollKey, poll, [], [], [], []⟩

/-- Canonicalization of an option label in `add_option.rs`:
`label.trim().to_lowercase()`. -/
def canonicalize (label : String) : String := rustToLower (rustTrim label)

/-- The `add_option` operation: Anchor account constraints in declaration
order (`authority` check, `!ended` check, `init_if_needed` of the label
guard, `init` of the option account), then the handler body of
`add_option.rs` in source order. -/
def addOptionStep (hashFn : String → Nat) (w : World) (now : Int)
    (authorityKey : Pubkey) (index : Nat) (label : String) (label_seed : Nat) :
    Except TxError World :=
  if ¬ w.poll.authority = authorityKey then .error (.d21 .Unauthorized)
  else if w.poll.ended then .error (.d21 .VotingClosed)
  else if (alookup w.options index).isSome then .error .accountInUse
  else if ¬ now < w.poll.start_ts then .error (.d21 .VotingStarted)
  else if (rustTrim label).isEmpty then .error (.d21 .LabelEmpty)
  else if ¬ (rustTrim label).utf8ByteSize ≤ MAX_LABEL then .error (.d21 .LabelTooLong)
  else if ¬ label_seed = hashFn (canonicalize label) then .error (.d21 .LabelSeedMismatch)
  else if ¬ ((alookup w.guards label_seed).getD ⟨0, 0⟩).poll = 0 then
    .error (.d21 .LabelAlreadyUsed)
  else
    .ok { w with
      poll := { w.poll with
        options_count := max w.poll.options_count (min (index + 1) 65535) }
      guards := ainsert w.guards label_seed ⟨w.pollKey, label_seed⟩
      options := ainsert w.options index ⟨w.pollKey, index, rustTrim label, 0, 0⟩ }

/-- The voter account as the `cast_vote` handler first sees it:
`init_if_needed` materializes a zero-filled record when absent. -/
def voterSlot (w : World) (voterKey : Pubkey) : Voter :=
  (alookup w.voters voterKey).getD ⟨0, 0, 0, 0⟩

/-- The receipt account as the `cast_vote` handler first sees it:
`init_if_needed` materializes a zero-filled record when absent. -/
def receiptSlot (w : World) (index : Nat) (voterKey : Pubkey) : Receipt :=
  (alookup w.receipts (index, voterKey)).getD ⟨0, 0, 0, 0⟩

/-- The voter lazy-initialization / binding block of `cast_vote.rs`
(lines 17–25): a zero `poll` field means the account was just created. -/
def resolveVoter (pollKey voterKey : Pubkey) (v0 : Voter) : Except TxError Voter :=
  if v0.poll = 0 then .ok ⟨pollKey, voterKey, 0, 0⟩
  else if ¬ v0.poll = pollKey then .error (.d21 .PollMismatch)
  else if ¬ v0.voter = voterKey then .error (.d21 .Unauthorized)
  else .ok v0

/-- The duplicate-receipt block of `cast_vote.rs` (lines 27–33): an already
initialized receipt is re-validated and then the call is rejected with
`AlreadyVotedThisOption`. -/
def checkReceipt (pollKey voterKey : Pubkey) (optIndex : Nat) (r0 : Receipt) :
    Except TxError Unit :=
  if r0.poll = 0 then .ok ()
  else if ¬ r0.poll = pollKey then .error (.d21 .PollMismatch)
  else if ¬ r0.voter = voterKey then .error (.d21 .Unauthorized)
  else if ¬ r0.option_index = optIndex then .error (.d21 .PollMismatch)
  else .error (.d21 .AlreadyVotedThisOption)

/-- The `match sentiment` block of `cast_vote.rs` (lines 35–52); reached
only after `matches!(sentiment, 1 | -1)`, so the second branch is the
`-1` arm. `checked_add(1)` on the `u8` usage counters and the `u32` tally
counters is modelled by explicit bound tests. -/
def applyVote (poll : Poll) (v : Voter) (o : OptionNode) (sentiment : Int) :
    Except TxError (Voter × OptionNode) :=
  if sentiment = 1 then
    if ¬ v.used_plus < poll.plus_credits then .error (.d21 .OutOfPositiveCredits)
    else if ¬ v.used_plus + 1 ≤ 255 then .error (.d21 .MathOverflow)
    else if ¬ o.plus_votes + 1 ≤ 4294967295 then .error (.d21 .MathOverflow)
    else .ok ({ v with used_plus := v.used_plus + 1 },
              { o with plus_votes := o.plus_votes + 1 })
  else
    if ¬ 2 * (v.used_minus + 1) ≤ v.used_plus then
      .error (.d21 .InsufficientPositivesForNegative)
    else if ¬ v.used_minus < poll.minus_credits then .error (.d21 .OutOfNegativeCredits)
    else if ¬ v.used_minus + 1 ≤ 255 then .error (.d21 .MathOverflow)
    else if ¬ o.minus_votes + 1 ≤ 4294967295 then .error (.d21 .MathOverflow)
    else .ok ({ v with used_minus := v.used_minus + 1 },
              { o with minus_votes := o.minus_votes + 1 })

/-- The `cast_vote` operation: Anchor account constraints in declaration
order (`!ended` on the poll, existence and poll-binding of the option
account, `init_if_needed` of the voter and receipt accounts), then the
handler body of `cast_vote.rs` in source order. -/
def castVoteStep (w : World) (now : Int) (voterKey : Pubkey) (index : Nat)
    (sentiment : Int) : Except TxError World :=
  if w.poll.ended then .error (.d21 .VotingClosed)
  else
    match alookup w.options index with
    | none => .error .accountNotFound
    | some option =>
      if ¬ option.poll = w.pollKey then .error (.d21 .PollMismatch)
      else if now < w.poll.start_ts then .error (.d21 .VotingNotStarted)
      else if w.poll.end_ts < now then .error (.d21 .VotingClosed)
      else if ¬ (sentiment = 1 ∨ sentiment = -1) then .error (.d21 .InvalidSentiment)
      else
        match resolveVoter w.pollKey voterKey (voterSlot w voterKey) with
        | .error e => .error e
        | .ok voter =>
          match checkReceipt w.pollKey voterKey option.index
              (receiptSlot w index voterKey) with
          | .error e => .error e
          | .ok _ =>
            match applyVote w.poll voter option sentiment with
            | .error e => .error e
            | .ok (voter', option') =>
              .ok { w with
                options := ainsert w.options index option'
                voters := ainsert w.voters voterKey voter'
                receipts := ainsert w.receipts (index, voterKey)
                  ⟨w.pollKey, voterKey, option.index, sentiment⟩ }

/-- An operation applied to an existing poll's world. -/
inductive Op where
  | addOption (now : Int) (authorityKey : Pubkey) (index : Nat)
      (label : String) (label_seed : Nat)
  | castVote (now : Int) (voterKey : Pubkey) (index : Nat) (sentiment : Int)
deriving DecidableEq, Repr

/-- Dispatch one operation. -/
def step (hashFn : String → Nat) (w : World) : Op → Except TxError World
  | .addOption now auth idx label seed => addOptionStep hashFn w now auth idx label seed
  | .castVote now vk idx s => castVoteStep w now vk idx s

/-- One operation at the committed-state level: Solana reverts every account
write of a failed instruction, so an error leaves the world unchanged. -/
def runOp (hashFn : String → Nat) (w : World) (op : Op) : World :=
  match step hashFn w op with
  | .ok w' => w'
  | .error _ => w

/-- A sequence of operations at the committed-state level. -/
def runOps (hashFn : String → Nat) (w : World) : List Op → World
  | [] => w
  | op :: rest => runOps hashFn (runOp hashFn w op) rest

/-- The voter record as seen by the credit checks of `cast_vote.rs`: the
stored record, or the freshly initialized one when the slot is empty. -/
def voterView (w : World) (voterKey : Pubkey) : Voter :=
  if (voterSlot w voterKey).poll = 0 then ⟨w.pollKey, voterKey, 0, 0⟩
  else voterSlot w voterKey

/-- The credit-budget invariant of the spec: every stored voter record is
within the poll's budgets. -/
def CreditInv (w : World) : Prop :=
  ∀ k v, alookup w.voters k = some v →
    v.used_plus ≤ w.poll.plus_credits ∧ v.used_minus ≤ w.poll.minus_credits

/-- Every stored receipt is bound to the world's poll key. -/
def ReceiptsBound (w : World) : Prop :=
  ∀ k r, alookup w.receipts k = some r → r.poll = w.pollKey

/-- The `cast_vote` checks that precede the credit/ratio/duplicate logic
all pass: poll not ended, option account present and bound to the poll,
the clock inside the open window, and the voter account either fresh or
bound to this poll and voter. -/
def votePathOpen (w : World) (now : Int) (voterKey : Pubkey) (index : Nat) : Prop :=
  w.poll.ended = false ∧
  (∃ o, alookup w.options index = some o ∧ o.poll = w.pollKey) ∧
  w.poll.start_ts ≤ now ∧ now ≤ w.poll.end_ts ∧
  ((voterSlot w voterKey).poll = 0 ∨
    ((voterSlot w voterKey).poll = w.pollKey ∧ (voterSlot w voterKey).voter = voterKey))

/-- A sample hash function for concrete witnesses. -/
def hf0 : String → Nat := fun _ => 0

/-- A sample poll configuration for concrete witnesses. -/
def cfg0 : PollConfig := ⟨1, "t", "d", 4, 2, 10, 20⟩

/-- The poll created from `cfg0` by authority `7`. -/
def poll0 : Poll := Poll.from_config cfg0 7

/-- The world right after `initialize_poll` with `cfg0`. -/
def w0 : World := World.init 1 poll0

/-- `w0` with one option registered at index 0. -/
def w1 : World :=
  { w0 with options := [(0, ⟨1, 0, "red", 0, 0⟩)] }

/-- `w1` with a voter who has spent all four positive credits. -/
def w2 : World :=
  { w1 with voters := [(9, ⟨1, 9, 4, 0⟩)] }

/-- `w1` with a voter whose ratio gate passes but whose negative budget is
spent. -/
def w3 : World :=
  { w1 with voters := [(9, ⟨1, 9, 6, 2⟩)] }

/-- `w1` with a receipt recording voter 9's positive vote on option 0. -/
def w4 : World :=
  { w1 with
    voters := [(9, ⟨1, 9, 1, 0⟩)]
    receipts := [((0, 9), ⟨1, 9, 0, 1⟩)] }

/-- `w1` with a voter holding two positive votes and no negative vote. -/
def w5 : World :=
  { w1 with voters := [(9, ⟨1, 9, 2, 0⟩)] }

/-- The world after voter 9 casts a negative vote on option 0 of `w5`. -/
def w5after : World := runOp hf0 w5 (Op.castVote 12 9 0 (-1))

/-- A sample operation sequence: register an option before the start time,
then cast a positive vote during the open window. -/
def ops0 : List Op := [Op.addOption 5 7 0 "red" 0, Op.castVote 12 9 0 1]

/-- The world after registering label `"Red"` at index 0 on `w0`. -/
def w6 : World := runOp hf0 w0 (Op.addOption 0 7 0 "Red" 0)

/-- The world after voter 9 casts a positive vote on option 0 of `w1`. -/
def w7 : World := runOp hf0 w1 (Op.castVote 12 9 0 1)

/-- `w1` with its poll administratively ended. -/
def w8 : World := { w1 with poll := { poll0 with ended := true } }

/-- The world after registering label `"a"` at the maximal index 65535 on
`w0`. -/
def w9 : World := runOp hf0 w0 (Op.addOption 0 7 65535 "a" 0)

/-- A title of 33 characters, each of which occupies two UTF-8 bytes. -/
def titleMulti : String := String.mk (List.replicate 33 'é')

/-- A poll configuration whose title has 33 characters but 66 bytes. -/
def cfgMulti : PollConfig := ⟨1, titleMulti, "", 1, 0, 10, 20⟩


/-! ## Basic lemmas about the association-list store -/

theorem alookup_ainsert_self {κ α : Type} [DecidableEq κ] (l : List (κ × α))
    (k : κ) (a : α) : alookup (ainsert l k a) k = some a := by
  simp [alookup, ainsert]

theorem alookup_ainsert_ne {κ α : Type} [DecidableEq κ] (l : List (κ × α))
    (k k' : κ) (a : α) (h : ¬ k' = k) :
    alookup (ainsert l k a) k' = alookup l k' := by
  simp [alookup, ainsert, h]

/-! ## Inversion lemmas for the three operations -/

theorem applyVote_ok {poll : Poll} {v : Voter} {o : OptionNode} {s : Int}
    {v' : Voter} {o' : OptionNode} (h : applyVote poll v o s = .ok (v', o')) :
    (s = 1 ∧ v.used_plus < poll.plus_credits ∧
      v' = { v with used_plus := v.used_plus + 1 } ∧
      o' = { o with plus_votes := o.plus_votes + 1 }) ∨
    (¬ s = 1 ∧ 2 * (v.used_minus + 1) ≤ v.used_plus ∧
      v.used_minus < poll.minus_credits ∧
      v' = { v with used_minus := v.used_minus + 1 } ∧
      o' = { o with minus_votes := o.minus_votes + 1 }) := by
  unfold applyVote at h
  split_ifs at h <;> simp_all

theorem resolveVoter_ok {pk vk : Pubkey} {v0 v : Voter}
    (h : resolveVoter pk vk v0 = .ok v) :
    v = ⟨pk, vk, 0, 0⟩ ∨ v = v0 := by
  unfold resolveVoter at h
  split_ifs at h <;> simp_all

theorem checkReceipt_ok {pk vk : Pubkey} {oi : Nat} {r0 : Receipt}
    (h : checkReceipt pk vk oi r0 = .ok ()) : r0.poll = 0 := by
  unfold checkReceipt at h
  split_ifs at h <;> simp_all

theorem castVoteStep_ok {w : World} {now : Int} {vk : Pubkey} {idx : Nat}
    {s : Int} {w' : World} (h : castVoteStep w now vk idx s = .ok w') :
    ∃ o voter voter' option',
      alookup w.options idx = some o ∧ o.poll = w.pollKey ∧
      w.poll.ended = false ∧ w.poll.start_ts ≤ now ∧ now ≤ w.poll.end_ts ∧
      (s = 1 ∨ s = -1) ∧
      resolveVoter w.pollKey vk (voterSlot w vk) = .ok voter ∧
      checkReceipt w.pollKey vk o.index (receiptSlot w idx vk) = .ok () ∧
      applyVote w.poll voter o s = .ok (voter', option') ∧
      w' = { w with
        options := ainsert w.options idx option'
        voters := ainsert w.voters vk voter'
        receipts := ainsert w.receipts (idx, vk) ⟨w.pollKey, vk, o.index, s⟩ } := by
  unfold castVoteStep at h
  split at h
  · cases h
  rename_i hend
  split at h
  · cases h
  rename_i o ho
  split_ifs at h with h1 h2 h3 h4
  split at h
  · cases h
  rename_i voter hv
  split at h
  · cases h
  rename_i u hr
  split at h
  · cases h
  rename_i voter' option' hp
  cases h
  refine ⟨o, voter, voter', option', ho, h1, ?_, ?_, ?_, h4,
    hv, ?_, hp, rfl⟩
  · simpa using hend
  · omega
  · omega
  · cases u
    exact hr

theorem addOptionStep_ok {hf : String → Nat} {w : World} {now : Int}
    {auth : Pubkey} {idx : Nat} {label : String} {seed : Nat} {w' : World}
    (h : addOptionStep hf w now auth idx label seed = .ok w') :
    w.poll.authority = auth ∧ w.poll.ended = false ∧
    alookup w.options idx = none ∧ now < w.poll.start_ts ∧
    (rustTrim label).isEmpty = false ∧
    (rustTrim label).utf8ByteSize ≤ MAX_LABEL ∧
    seed = hf (canonicalize label) ∧
    ((alookup w.guards seed).getD ⟨0, 0⟩).poll = 0 ∧
    w' = { w with
      poll := { w.poll with
        options_count := max w.poll.options_count (min (idx + 1) 65535) }
      guards := ainsert w.guards seed ⟨w.pollKey, seed⟩
      options := ainsert w.options idx ⟨w.pollKey, idx, rustTrim label, 0, 0⟩ } := by
  unfold addOptionStep at h
  split_ifs at h with h1 h2 h3 h4 h5 h6 h7 h8
  cases h
  refine ⟨h1, by simpa using h2, by simpa using h3, by omega, by simpa using h5,
    h6, h7, h8, rfl⟩

theorem step_error_runOp {hf : String → Nat} {w : World} {op : Op} {e : TxError}
    (h : step hf w op = .error e) : runOp hf w op = w := by
  unfold runOp
  rw [h]

/-! ## Preservation lemmas over sequences of operations -/

theorem voterSlot_bounds {w : World} {vk : Pubkey} (hInv : CreditInv w) :
    (voterSlot w vk).used_plus ≤ w.poll.plus_credits ∧
    (voterSlot w vk).used_minus ≤ w.poll.minus_credits := by
  unfold voterSlot
  cases hl : alookup w.voters vk with
  | none => simp
  | some v => simpa using hInv vk v hl

theorem runOp_creditInv {hf : String → Nat} {w : World} {op : Op}
    (hInv : CreditInv w) : CreditInv (runOp hf w op) := by
  unfold runOp
  cases hstep : step hf w op with
  | error e => exact hInv
  | ok w' =>
    cases op with
    | addOption now auth idx label seed =>
      simp only [step] at hstep
      obtain ⟨-, -, -, -, -, -, -, -, hw'⟩ := addOptionStep_ok hstep
      subst hw'
      intro k v hkv
      exact hInv k v hkv
    | castVote now vk idx s =>
      simp only [step] at hstep
      obtain ⟨o, voter, voter', option', ho, -, -, -, -, -, hv, hr, hp, hw'⟩ :=
        castVoteStep_ok hstep
      subst hw'
      intro k v hkv
      simp only at hkv ⊢
      by_cases hk : k = vk
      · subst hk
        rw [alookup_ainsert_self] at hkv
        cases hkv
        have hbase : voter.used_plus ≤ w.poll.plus_credits ∧
            voter.used_minus ≤ w.poll.minus_credits := by
          rcases resolveVoter_ok hv with hfresh | hstored
          · subst hfresh; exact ⟨Nat.zero_le _, Nat.zero_le _⟩
          · subst hstored; exact voterSlot_bounds hInv
        rcases applyVote_ok hp with ⟨-, hlt, hv', -⟩ | ⟨-, -, hlt, hv', -⟩
        · subst hv'; exact ⟨hlt, hbase.2⟩
        · subst hv'; exact ⟨hbase.1, hlt⟩
      · rw [alookup_ainsert_ne _ _ _ _ hk] at hkv
        exact hInv k v hkv

theorem runOps_creditInv {hf : String → Nat} {w : World} {ops : List Op}
    (hInv : CreditInv w) : CreditInv (runOps hf w ops) := by
  induction ops generalizing w with
  | nil => exact hInv
  | cons op rest ih => exact ih (runOp_creditInv hInv)

theorem runOp_receipts {hf : String → Nat} {w : World} {op : Op}
    (hpk : ¬ w.pollKey = 0) (hB : ReceiptsBound w) :
    ReceiptsBound (runOp hf w op) ∧ (runOp hf w op).pollKey = w.pollKey ∧
    (∀ k r, alookup w.receipts k = some r →
      alookup (runOp hf w op).receipts k = some r) := by
  unfold runOp
  cases hstep : step hf w op with
  | error e => exact ⟨hB, rfl, fun k r h => h⟩
  | ok w' =>
    cases op with
    | addOption now auth idx label seed =>
      simp only [step] at hstep
      obtain ⟨-, -, -, -, -, -, -, -, hw'⟩ := addOptionStep_ok hstep
      subst hw'
      exact ⟨fun k r h => hB k r h, rfl, fun k r h => h⟩
    | castVote now vk idx s =>
      simp only [step] at hstep
      obtain ⟨o, voter, voter', option', ho, -, -, -, -, -, hv, hr, hp, hw'⟩ :=
        castVoteStep_ok hstep
      subst hw'
      have hslot : (receiptSlot w idx vk).poll = 0 := checkReceipt_ok hr
      refine ⟨?_, rfl, ?_⟩
      · intro k r h
        simp only at h ⊢
        by_cases hk : k = (idx, vk)
        · subst hk
          rw [alookup_ainsert_self] at h
          cases h
          rfl
        · rw [alookup_ainsert_ne _ _ _ _ hk] at h
          exact hB k r h
      · intro k r h
        simp only
        by_cases hk : k = (idx, vk)
        · subst hk
          exfalso
          apply hpk
          have : (receiptSlot w idx vk) = r := by
            unfold receiptSlot
            rw [h]
            rfl
          rw [← hB (idx, vk) r h, ← this, hslot]
        · rw [alookup_ainsert_ne _ _ _ _ hk]
          exact h

theorem runOps_receipts {hf : String → Nat} {w : World} {ops : List Op}
    (hpk : ¬ w.pollKey = 0) (hB : ReceiptsBound w) :
    ReceiptsBound (runOps hf w ops) ∧ (runOps hf w ops).pollKey = w.pollKey ∧
    (∀ k r, alookup w.receipts k = some r →
      alookup (runOps hf w ops).receipts k = some r) := by
  induction ops generalizing w with
  | nil => exact ⟨hB, rfl, fun k r h => h⟩
  | cons op rest ih =>
    obtain ⟨hB1, hpk1, hmono1⟩ := @runOp_receipts hf w op hpk hB
    have hpk1n : ¬ (runOp hf w op).pollKey = 0 := by rw [hpk1]; exact hpk
    obtain ⟨hB2, hpk2, hmono2⟩ := ih hpk1n hB1
    refine ⟨hB2, ?_, fun k r h => hmono2 k r (hmono1 k r h)⟩
    show (runOps hf (runOp hf w op) rest).pollKey = w.pollKey
    rw [hpk2, hpk1]

/-! ## Resolution helpers for the open-path theorems -/

theorem resolveVoter_ok_view {w : World} {vk : Pubkey} {voter : Voter}
    (h : resolveVoter w.pollKey vk (voterSlot w vk) = .ok voter) :
    voter = voterView w vk := by
  unfold resolveVoter at h
  unfold voterView
  split_ifs at h with h1 h2 h3 <;> simp_all

theorem resolveVoter_of_open {w : World} {vk : Pubkey}
    (hb : (voterSlot w vk).poll = 0 ∨
      ((voterSlot w vk).poll = w.pollKey ∧ (voterSlot w vk).voter = vk)) :
    resolveVoter w.pollKey vk (voterSlot w vk) = .ok (voterView w vk) := by
  unfold resolveVoter voterView
  rcases hb with h0 | ⟨h1, h2⟩
  · rw [if_pos h0, if_pos h0]
  · by_cases h0 : (voterSlot w vk).poll = 0
    · rw [if_pos h0, if_pos h0]
    · rw [if_neg h0, if_neg h0, if_neg (by rw [h1]; exact not_not_intro rfl),
        if_neg (by rw [h2]; exact not_not_intro rfl)]

/-! ## Claim C1 -/

/-- **C1.** For every `castVote` call with sentiment `-1` that succeeds,
immediately before the increments the voter's `used_plus` satisfied
`used_plus ≥ 2 * (used_minus + 1)`; if that inequality fails (on a call
that passes every earlier check) the call is rejected with
`InsufficientPositivesForNegative`, and otherwise a negative vote
additionally requires `used_minus < minus_credits` (`OutOfNegativeCredits`)
before `used_minus` and the option's `minus_votes` are each incremented by
one. -/
theorem castVote_negative_ratio_gate (w : World) (now : Int) (vk : Pubkey)
    (idx : Nat) :
    (∀ w', castVoteStep w now vk idx (-1) = .ok w' →
      2 * ((voterView w vk).used_minus + 1) ≤ (voterView w vk).used_plus ∧
      (voterView w vk).used_minus < w.poll.minus_credits ∧
      alookup w'.voters vk = some { voterView w vk with
        used_minus := (voterView w vk).used_minus + 1 } ∧
      (∃ o, alookup w.options idx = some o ∧
        alookup w'.options idx = some { o with minus_votes := o.minus_votes + 1 })) ∧
    (votePathOpen w now vk idx →
      (receiptSlot w idx vk).poll = 0 →
      ¬ 2 * ((voterView w vk).used_minus + 1) ≤ (voterView w vk).used_plus →
      castVoteStep w now vk idx (-1) =
        .error (.d21 .InsufficientPositivesForNegative)) ∧
    (votePathOpen w now vk idx →
      (receiptSlot w idx vk).poll = 0 →
      2 * ((voterView w vk).used_minus + 1) ≤ (voterView w vk).used_plus →
      ¬ (voterView w vk).used_minus < w.poll.minus_credits →
      castVoteStep w now vk idx (-1) = .error (.d21 .OutOfNegativeCredits)) := by
  refine ⟨?_, ?_, ?_⟩
  · intro w' hok
    obtain ⟨o, voter, voter', option', ho, hop, hend, hst, hen, hs, hv, hr, hp, hw'⟩ :=
      castVoteStep_ok hok
    have hview := resolveVoter_ok_view hv
    subst hview
    rcases applyVote_ok hp with ⟨hs1, -, -, -⟩ | ⟨-, hgate, hlt, hv', ho'⟩
    · exact absurd hs1 (by decide)
    · subst hv'
      subst ho'
      subst hw'
      refine ⟨hgate, hlt, ?_, o, ho, ?_⟩
      · simp [alookup_ainsert_self]
      · simp [alookup_ainsert_self]
  · intro hpath hrfresh hgate
    obtain ⟨hend, ⟨o, ho, hop⟩, hst, hen, hb⟩ := hpath
    have hrv := resolveVoter_of_open hb
    simp only [castVoteStep, hend, Bool.false_eq_true, if_false, ho, hop,
      not_not_intro hop, hrv, checkReceipt, hrfresh]
    rw [if_neg (by simp), if_neg (not_lt.mpr hst), if_neg (not_lt.mpr hen),
      if_neg (by simp)]
    simp [applyVote, hgate]
  · intro hpath hrfresh hgate hcredit
    obtain ⟨hend, ⟨o, ho, hop⟩, hst, hen, hb⟩ := hpath
    have hrv := resolveVoter_of_open hb
    simp only [castVoteStep, hend, Bool.false_eq_true, if_false, ho, hop,
      not_not_intro hop, hrv, checkReceipt, hrfresh]
    rw [if_neg (by simp), if_neg (not_lt.mpr hst), if_neg (not_lt.mpr hen),
      if_neg (by simp)]
    simp [applyVote, hgate, hcredit]

/-- Witness for C1: concrete instances of all three conjuncts — a voter
with two positive votes successfully casts a negative one (gate `2 ≤ 2`),
a voter with zero positive votes is rejected by the ratio gate, and a
voter with six positive and two negative votes in a two-negative-credit
poll is rejected by the negative budget. -/
theorem castVote_negative_ratio_gate_witness :
    (2 * ((voterView w5 9).used_minus + 1) ≤ (voterView w5 9).used_plus ∧
      (voterView w5 9).used_minus < w5.poll.minus_credits ∧
      alookup w5after.voters 9 = some { voterView w5 9 with
        used_minus := (voterView w5 9).used_minus + 1 } ∧
      (∃ o, alookup w5.options 0 = some o ∧
        alookup w5after.options 0 = some { o with minus_votes := o.minus_votes + 1 })) ∧
    castVoteStep w1 12 9 0 (-1) = .error (.d21 .InsufficientPositivesForNegative) ∧
    castVoteStep w3 12 9 0 (-1) = .error (.d21 .OutOfNegativeCredits) := by
  refine ⟨(castVote_negative_ratio_gate w5 12 9 0).1 w5after (by decide),
    (castVote_negative_ratio_gate w1 12 9 0).2.1 ?_ (by decide) (by decide),
    (castVote_negative_ratio_gate w3 12 9 0).2.2 ?_ (by decide) (by decide) (by decide)⟩
  · exact ⟨rfl, ⟨⟨1, 0, "red", 0, 0⟩, rfl, rfl⟩, by decide, by decide, Or.inl rfl⟩
  · exact ⟨rfl, ⟨⟨1, 0, "red", 0, 0⟩, rfl, rfl⟩, by decide, by decide,
      Or.inr ⟨rfl, rfl⟩⟩

/-! ## Claim C2 -/

/-- **C2.** For every voter record and its poll, `used_plus ≤ plus_credits`
and `used_minus ≤ minus_credits` hold in every state reachable by any
sequence of `add_option` / `cast_vote` operations from a poll produced by
`initialize_poll` (a fresh world holds no voter record, and each record is
created at zero usage); in particular a positive vote is rejected with
`OutOfPositiveCredits` when `used_plus = plus_credits` and a negative vote
with `OutOfNegativeCredits` when `used_minus = minus_credits`. -/
theorem credit_budget_invariant (hf : String → Nat) (cfg : PollConfig)
    (auth pk : Pubkey) (now0 : Int) (ops : List Op) (poll : Poll) (w : World)
    (now : Int) (vk : Pubkey) (idx : Nat) :
    (initializePoll cfg auth now0 = .ok poll →
      CreditInv (runOps hf (World.init pk poll) ops)) ∧
    (votePathOpen w now vk idx → (receiptSlot w idx vk).poll = 0 →
      (voterView w vk).used_plus = w.poll.plus_credits →
      castVoteStep w now vk idx 1 = .error (.d21 .OutOfPositiveCredits)) ∧
    (votePathOpen w now vk idx → (receiptSlot w idx vk).poll = 0 →
      2 * ((voterView w vk).used_minus + 1) ≤ (voterView w vk).used_plus →
      (voterView w vk).used_minus = w.poll.minus_credits →
      castVoteStep w now vk idx (-1) = .error (.d21 .OutOfNegativeCredits)) := by
  refine ⟨?_, ?_, ?_⟩
  · intro hinit
    have hbase : CreditInv (World.init pk poll) := by
      intro k v h
      simp [World.init, alookup] at h
    exact runOps_creditInv hbase
  · intro hpath hrfresh hfull
    obtain ⟨hend, ⟨o, ho, hop⟩, hst, hen, hb⟩ := hpath
    have hrv := resolveVoter_of_open hb
    simp only [castVoteStep, hend, Bool.false_eq_true, if_false, ho, hop,
      not_not_intro hop, hrv, checkReceipt, hrfresh]
    rw [if_neg (by simp), if_neg (not_lt.mpr hst), if_neg (not_lt.mpr hen),
      if_neg (by simp)]
    have happ : applyVote w.poll (voterView w vk) o 1 =
        .error (.d21 .OutOfPositiveCredits) := by
      unfold applyVote
      rw [if_pos rfl, if_pos (by omega)]
    simp [happ]
  · intro hpath hrfresh hgate hfull
    obtain ⟨hend, ⟨o, ho, hop⟩, hst, hen, hb⟩ := hpath
    have hrv := resolveVoter_of_open hb
    simp only [castVoteStep, hend, Bool.false_eq_true, if_false, ho, hop,
      not_not_intro hop, hrv, checkReceipt, hrfresh]
    rw [if_neg (by simp), if_neg (not_lt.mpr hst), if_neg (not_lt.mpr hen),
      if_neg (by simp)]
    have happ : applyVote w.poll (voterView w vk) o (-1) =
        .error (.d21 .OutOfNegativeCredits) := by
      unfold applyVote
      rw [if_neg (by decide), if_neg (not_not_intro hgate), if_pos (by omega)]
    simp [happ]

/-- Witness for C2: the invariant after a concrete register-then-vote
trace from `initialize_poll cfg0`, a voter with all four positive credits
spent being rejected positively, and a voter with both negative credits
spent being rejected negatively. -/
theorem credit_budget_invariant_witness :
    CreditInv (runOps hf0 (World.init 1 poll0) ops0) ∧
    castVoteStep w2 12 9 0 1 = .error (.d21 .OutOfPositiveCredits) ∧
    castVoteStep w3 12 9 0 (-1) = .error (.d21 .OutOfNegativeCredits) := by
  refine ⟨(credit_budget_invariant hf0 cfg0 7 1 0 ops0 poll0 w0 0 0 0).1 (by decide),
    (credit_budget_invariant hf0 cfg0 7 1 0 ops0 poll0 w2 12 9 0).2.1 ?_ (by decide)
      (by decide),
    (credit_budget_invariant hf0 cfg0 7 1 0 ops0 poll0 w3 12 9 0).2.2 ?_ (by decide)
      (by decide) (by decide)⟩
  · exact ⟨rfl, ⟨⟨1, 0, "red", 0, 0⟩, rfl, rfl⟩, by decide, by decide,
      Or.inr ⟨rfl, rfl⟩⟩
  · exact ⟨rfl, ⟨⟨1, 0, "red", 0, 0⟩, rfl, rfl⟩, by decide, by decide,
      Or.inr ⟨rfl, rfl⟩⟩

/-! ## Claim C3 -/

theorem runOps_append (hf : String → Nat) (w : World) (ops1 ops2 : List Op) :
    runOps hf w (ops1 ++ ops2) = runOps hf (runOps hf w ops1) ops2 := by
  induction ops1 generalizing w with
  | nil => rfl
  | cons op rest ih => simpa [runOps] using ih (runOp hf w op)

/-- **C3.** For every (poll, option, voter) triple, at most one `Receipt`
record ever exists: once a receipt is stored it survives, unchanged, every
further operation; and a second `castVote` call by the same voter for the
same option of the same poll — whatever its sentiment — fails with
`AlreadyVotedThisOption` and leaves every record (tallies and credit usage
included) unchanged. -/
theorem receipt_uniqueness_and_duplicate_rejection (hf : String → Nat)
    (pk : Pubkey) (poll : Poll) (ops1 ops2 : List Op) (key : Nat × Pubkey)
    (r : Receipt) (w : World) (now : Int) (vk : Pubkey) (idx : Nat) (s : Int)
    (o : OptionNode) :
    (¬ pk = 0 →
      alookup (runOps hf (World.init pk poll) ops1).receipts key = some r →
      alookup (runOps hf (World.init pk poll) (ops1 ++ ops2)).receipts key = some r) ∧
    (¬ w.pollKey = 0 → w.poll.ended = false →
      alookup w.options idx = some o → o.poll = w.pollKey →
      w.poll.start_ts ≤ now → now ≤ w.poll.end_ts → (s = 1 ∨ s = -1) →
      ((voterSlot w vk).poll = 0 ∨
        ((voterSlot w vk).poll = w.pollKey ∧ (voterSlot w vk).voter = vk)) →
      alookup w.receipts (idx, vk) = some r →
      r.poll = w.pollKey → r.voter = vk → r.option_index = o.index →
      castVoteStep w now vk idx s = .error (.d21 .AlreadyVotedThisOption) ∧
      runOp hf w (Op.castVote now vk idx s) = w) := by
  constructor
  · intro hpk h1
    rw [runOps_append]
    have hInit : ReceiptsBound (World.init pk poll) := by
      intro k rr h
      simp [World.init, alookup] at h
    obtain ⟨hB1, hpk1, -⟩ :=
      @runOps_receipts hf (World.init pk poll) ops1 hpk hInit
    have hpk1n : ¬ (runOps hf (World.init pk poll) ops1).pollKey = 0 := by
      rw [hpk1]; exact hpk
    obtain ⟨-, -, hmono⟩ := @runOps_receipts hf (runOps hf (World.init pk poll) ops1) ops2 hpk1n hB1
    exact hmono key r h1
  · intro hpk hend ho hop hst hen hs hb hlook hrpoll hrvoter hridx
    have hrv := resolveVoter_of_open hb
    have hslot : receiptSlot w idx vk = r := by
      unfold receiptSlot
      rw [hlook]
      rfl
    have hchk : checkReceipt w.pollKey vk o.index r =
        .error (.d21 .AlreadyVotedThisOption) := by
      unfold checkReceipt
      rw [if_neg (by rw [hrpoll]; exact hpk), if_neg (not_not_intro hrpoll),
        if_neg (not_not_intro hrvoter), if_neg (not_not_intro hridx)]
    have herr : castVoteStep w now vk idx s =
        .error (.d21 .AlreadyVotedThisOption) := by
      simp only [castVoteStep, hend, Bool.false_eq_true, if_false, ho, hop,
        not_not_intro hop, hrv, hslot, hchk]
      rw [if_neg (by simp), if_neg (not_lt.mpr hst), if_neg (not_lt.mpr hen),
        if_neg (not_not_intro hs)]
    refine ⟨herr, ?_⟩
    unfold runOp
    simp [step, herr]

/-- Witness for C3: a receipt written by the trace `ops0` survives a
subsequent duplicate-vote attempt, and that duplicate attempt on the
concrete world `w4` fails with `AlreadyVotedThisOption` leaving the world
unchanged. -/
theorem receipt_uniqueness_and_duplicate_rejection_witness :
    alookup (runOps hf0 (World.init 1 poll0)
      (ops0 ++ [Op.castVote 13 9 0 (-1)])).receipts (0, 9) = some ⟨1, 9, 0, 1⟩ ∧
    castVoteStep w4 12 9 0 (-1) = .error (.d21 .AlreadyVotedThisOption) ∧
    runOp hf0 w4 (Op.castVote 12 9 0 (-1)) = w4 := by
  refine ⟨(receipt_uniqueness_and_duplicate_rejection hf0 1 poll0 ops0
      [Op.castVote 13 9 0 (-1)] (0, 9) ⟨1, 9, 0, 1⟩ w4 12 9 0 (-1)
      ⟨1, 0, "red", 0, 0⟩).1 (by decide) (by decide), ?_, ?_⟩
  · exact ((receipt_uniqueness_and_duplicate_rejection hf0 1 poll0 ops0
      [Op.castVote 13 9 0 (-1)] (0, 9) ⟨1, 9, 0, 1⟩ w4 12 9 0 (-1)
      ⟨1, 0, "red", 0, 0⟩).2 (by decide) (by decide) (by decide) (by decide)
      (by decide) (by decide) (Or.inr rfl)
      (Or.inr ⟨rfl, rfl⟩) (by decide) (by decide) (by decide) (by decide)).1
  · exact ((receipt_uniqueness_and_duplicate_rejection hf0 1 poll0 ops0
      [Op.castVote 13 9 0 (-1)] (0, 9) ⟨1, 9, 0, 1⟩ w4 12 9 0 (-1)
      ⟨1, 0, "red", 0, 0⟩).2 (by decide) (by decide) (by decide) (by decide)
      (by decide) (by decide) (Or.inr rfl)
      (Or.inr ⟨rfl, rfl⟩) (by decide) (by decide) (by decide) (by decide)).2

/-! ## Claim C4 -/

/-- **C4.** Every operation that returns an error leaves every record
exactly as it was: at the committed-state level a failed `add_option` or
`cast_vote` changes nothing (`runOp` is the identity, so no lazily
initialized voter record survives a failed first vote), and a failed
`initialize_poll` produces no poll at all; a successful `cast_vote`
commits the credit increment, the tally increment and the receipt
creation together, in one state update. -/
theorem rejected_operations_leave_state_unchanged (hf : String → Nat)
    (w : World) (op : Op) (e : TxError) (cfg : PollConfig) (auth : Pubkey)
    (now0 : Int) (now : Int) (vk : Pubkey) (idx : Nat) (s : Int) (w' : World) :
    (step hf w op = .error e → runOp hf w op = w) ∧
    (initializePoll cfg auth now0 = .error e →
      ∀ p, ¬ initializePoll cfg auth now0 = .ok p) ∧
    (castVoteStep w now vk idx s = .ok w' →
      ∃ o voter voter' option',
        alookup w.options idx = some o ∧
        resolveVoter w.pollKey vk (voterSlot w vk) = .ok voter ∧
        applyVote w.poll voter o s = .ok (voter', option') ∧
        w' = { w with
          options := ainsert w.options idx option'
          voters := ainsert w.voters vk voter'
          receipts := ainsert w.receipts (idx, vk) ⟨w.pollKey, vk, o.index, s⟩ }) := by
  refine ⟨step_error_runOp, ?_, ?_⟩
  · intro herr p hok
    rw [herr] at hok
    cases hok
  · intro hok
    obtain ⟨o, voter, voter', option', ho, -, -, -, -, -, hv, -, hp, hw'⟩ :=
      castVoteStep_ok hok
    exact ⟨o, voter, voter', option', ho, hv, hp, hw'⟩

/-- Witness for C4: a vote before the poll opens fails with
`VotingNotStarted` and leaves the concrete world `w1` unchanged; the
successful negative vote on `w5` commits voter, option and receipt updates
in one step. -/
theorem rejected_operations_leave_state_unchanged_witness :
    runOp hf0 w1 (Op.castVote 0 9 0 1) = w1 ∧
    (∃ o voter voter' option',
      alookup w5.options 0 = some o ∧
      resolveVoter w5.pollKey 9 (voterSlot w5 9) = .ok voter ∧
      applyVote w5.poll voter o (-1) = .ok (voter', option') ∧
      w5after = { w5 with
        options := ainsert w5.options 0 option'
        voters := ainsert w5.voters 9 voter'
        receipts := ainsert w5.receipts (0, 9) ⟨w5.pollKey, 9, o.index, -1⟩ }) :=
  ⟨(rejected_operations_leave_state_unchanged hf0 w1 (Op.castVote 0 9 0 1)
      (.d21 .VotingNotStarted) cfg0 7 0 0 9 0 1 w1).1 (by decide),
    (rejected_operations_leave_state_unchanged hf0 w5 (Op.castVote 12 9 0 (-1))
      (.d21 .VotingNotStarted) cfg0 7 0 12 9 0 (-1) w5after).2.2 (by decide)⟩

/-! ## Claim C5 -/

/-- **C5.** For every poll and every two `addOption` calls whose labels
canonicalize (trim then lowercase) to the same string, whichever call
executes second fails with `LabelAlreadyUsed`, for any order of the two
calls and any raw spellings of the labels (the statement quantifies over
both labels symmetrically); the first call for a canonical label — with a
fresh option index and guard — succeeds. Both calls carry the correct
commitment for their own label and the second call's own index and label
are otherwise valid. -/
theorem duplicate_canonical_label_rejected (hf : String → Nat) (w : World)
    (now1 now2 : Int) (auth : Pubkey) (idx1 idx2 : Nat) (l1 l2 : String)
    (w' : World) :
    (¬ w.pollKey = 0 →
      canonicalize l1 = canonicalize l2 →
      addOptionStep hf w now1 auth idx1 l1 (hf (canonicalize l1)) = .ok w' →
      alookup w'.options idx2 = none →
      now2 < w.poll.start_ts →
      (rustTrim l2).isEmpty = false →
      (rustTrim l2).utf8ByteSize ≤ MAX_LABEL →
      addOptionStep hf w' now2 auth idx2 l2 (hf (canonicalize l2)) =
        .error (.d21 .LabelAlreadyUsed)) ∧
    (w.poll.authority = auth → w.poll.ended = false →
      alookup w.options idx1 = none → now1 < w.poll.start_ts →
      (rustTrim l1).isEmpty = false → (rustTrim l1).utf8ByteSize ≤ MAX_LABEL →
      alookup w.guards (hf (canonicalize l1)) = none →
      ∃ wnew, addOptionStep hf w now1 auth idx1 l1 (hf (canonicalize l1)) =
        .ok wnew) := by
  constructor
  · intro hpk hcanon hok1 hidx2 hnow2 hne hlen
    obtain ⟨hauth, hend, hidx1, hnow1, -, -, -, -, hw1⟩ := addOptionStep_ok hok1
    have hauth1 : w'.poll.authority = auth := by rw [hw1]; exact hauth
    have hend1 : w'.poll.ended = false := by rw [hw1]; exact hend
    have hstart1 : w'.poll.start_ts = w.poll.start_ts := by rw [hw1]
    have hseed : hf (canonicalize l2) = hf (canonicalize l1) := by rw [hcanon]
    have hguard : alookup w'.guards (hf (canonicalize l2)) =
        some ⟨w.pollKey, hf (canonicalize l1)⟩ := by
      rw [hw1, hseed]
      exact alookup_ainsert_self _ _ _
    unfold addOptionStep
    rw [if_neg (not_not_intro hauth1), if_neg (by simp [hend1]),
      if_neg (by simp [hidx2]), if_neg (by rw [hstart1]; exact not_not_intro hnow2),
      if_neg (by simp [hne]), if_neg (not_not_intro hlen),
      if_neg (not_not_intro rfl),
      if_pos (by simp only [hguard, Option.getD_some]; exact hpk)]
  · intro hauth hend hidx hnow hne hlen hguard
    unfold addOptionStep
    rw [if_neg (not_not_intro hauth), if_neg (by simp [hend]),
      if_neg (by simp [hidx]), if_neg (not_not_intro hnow),
      if_neg (by simp [hne]), if_neg (not_not_intro hlen),
      if_neg (not_not_intro rfl),
      if_neg (by simp only [hguard, Option.getD_none]; exact not_not_intro trivial)]
    exact ⟨_, rfl⟩

/-- Witness for C5: on the fresh poll world `w0`, registering `"Red"` at
index 0 succeeds, and then registering `" red "` (same canonical label) at
the fresh index 1 fails with `LabelAlreadyUsed`. -/
theorem duplicate_canonical_label_rejected_witness :
    addOptionStep hf0 w6 0 7 1 " red " 0 = .error (.d21 .LabelAlreadyUsed) ∧
    (∃ wnew, addOptionStep hf0 w0 0 7 0 "Red" 0 = .ok wnew) :=
  ⟨(duplicate_canonical_label_rejected hf0 w0 0 0 7 0 1 "Red" " red " w6).1
      (by decide) (by decide) (by decide) (by decide) (by decide) (by decide)
      (by decide),
    (duplicate_canonical_label_rejected hf0 w0 0 0 7 0 1 "Red" " red " w6).2
      (by decide) (by decide) (by decide) (by decide) (by decide) (by decide)
      (by decide)⟩

/-! ## Claim C6 -/

/-- **C6.** An option can be created only while `now < start_ts`:
`addOption` fails with `VotingStarted` for every `now ≥ start_ts` (with the
caller the owner, the poll not ended and the option index fresh), even if
no votes exist; and a vote is accepted only while
`start_ts ≤ now ≤ end_ts` — both bounds inclusive — with the poll's
`ended` flag false: `castVote` fails with `VotingNotStarted` when
`now < start_ts` (poll not ended) and with `VotingClosed` when
`now > end_ts` or when `ended` is true. -/
theorem timing_gates (hf : String → Nat) (w : World) (now : Int)
    (auth vk : Pubkey) (idx : Nat) (label : String) (seed : Nat) (s : Int)
    (w' : World) (o : OptionNode) :
    (addOptionStep hf w now auth idx label seed = .ok w' →
      now < w.poll.start_ts) ∧
    (w.poll.authority = auth → w.poll.ended = false →
      alookup w.options idx = none → w.poll.start_ts ≤ now →
      addOptionStep hf w now auth idx label seed = .error (.d21 .VotingStarted)) ∧
    (castVoteStep w now vk idx s = .ok w' →
      w.poll.ended = false ∧ w.poll.start_ts ≤ now ∧ now ≤ w.poll.end_ts) ∧
    (w.poll.ended = false → alookup w.options idx = some o →
      o.poll = w.pollKey → now < w.poll.start_ts →
      castVoteStep w now vk idx s = .error (.d21 .VotingNotStarted)) ∧
    (w.poll.ended = false → alookup w.options idx = some o →
      o.poll = w.pollKey → w.poll.start_ts ≤ w.poll.end_ts →
      w.poll.end_ts < now →
      castVoteStep w now vk idx s = .error (.d21 .VotingClosed)) ∧
    (w.poll.ended = true →
      castVoteStep w now vk idx s = .error (.d21 .VotingClosed)) := by
  refine ⟨?_, ?_, ?_, ?_, ?_, ?_⟩
  · intro hok
    exact (addOptionStep_ok hok).2.2.2.1
  · intro hauth hend hidx hst
    unfold addOptionStep
    rw [if_neg (not_not_intro hauth), if_neg (by simp [hend]),
      if_neg (by simp [hidx]), if_pos (not_lt.mpr hst)]
  · intro hok
    obtain ⟨-, -, -, -, -, -, hend, hst, hen, -, -, -, -, -⟩ := castVoteStep_ok hok
    exact ⟨hend, hst, hen⟩
  · intro hend ho hop hlt
    simp only [castVoteStep, hend, Bool.false_eq_true, if_false, ho]
    rw [if_neg (by simp [hop]), if_pos hlt]
  · intro hend ho hop hwin hlt
    simp only [castVoteStep, hend, Bool.false_eq_true, if_false, ho]
    rw [if_neg (by simp [hop]), if_neg (by omega), if_pos hlt]
  · intro hended
    unfold castVoteStep
    rw [if_pos hended]

/-- Witness for C6: a successful pre-start option registration and
mid-window vote on concrete worlds; `addOption` at `now = 15 ≥ 10` failing
with `VotingStarted`; a vote at `now = 5 < 10` failing with
`VotingNotStarted`; a vote at `now = 25 > 20` failing with `VotingClosed`;
and a vote on an ended poll failing with `VotingClosed`. -/
theorem timing_gates_witness :
    (0 : Int) < w0.poll.start_ts ∧
    addOptionStep hf0 w0 15 7 0 "red" 0 = .error (.d21 .VotingStarted) ∧
    (w1.poll.ended = false ∧ w1.poll.start_ts ≤ 12 ∧ 12 ≤ w1.poll.end_ts) ∧
    castVoteStep w1 5 9 0 1 = .error (.d21 .VotingNotStarted) ∧
    castVoteStep w1 25 9 0 1 = .error (.d21 .VotingClosed) ∧
    castVoteStep w8 12 9 0 1 = .error (.d21 .VotingClosed) :=
  ⟨(timing_gates hf0 w0 0 7 9 0 "Red" 0 1 w6 ⟨1, 0, "red", 0, 0⟩).1 (by decide),
    (timing_gates hf0 w0 15 7 9 0 "red" 0 1 w6 ⟨1, 0, "red", 0, 0⟩).2.1
      (by decide) (by decide) (by decide) (by decide),
    (timing_gates hf0 w1 12 7 9 0 "red" 0 1 w7 ⟨1, 0, "red", 0, 0⟩).2.2.1
      (by decide),
    (timing_gates hf0 w1 5 7 9 0 "red" 0 1 w7 ⟨1, 0, "red", 0, 0⟩).2.2.2.1
      (by decide) (by decide) (by decide) (by decide),
    (timing_gates hf0 w1 25 7 9 0 "red" 0 1 w7 ⟨1, 0, "red", 0, 0⟩).2.2.2.2.1
      (by decide) (by decide) (by decide) (by decide) (by decide),
    (timing_gates hf0 w8 12 7 9 0 "red" 0 1 w7 ⟨1, 0, "red", 0, 0⟩).2.2.2.2.2
      (by decide)⟩

/-! ## Claim C7 -/

/-- **C7.** `addOption` recomputes the hash of the trimmed, lowercased
label and fails with `LabelSeedMismatch` whenever the caller-supplied
commitment differs from that hash (on a call passing the earlier owner /
ended / fresh-index / timing / label-shape checks); the seed check
precedes the duplication check, so a call with a wrong commitment never
fails with `LabelAlreadyUsed` and never succeeds — whatever the state of
the guard records, in particular when the label is already registered. -/
theorem label_seed_mismatch_precedence (hf : String → Nat) (w : World)
    (now : Int) (auth : Pubkey) (idx : Nat) (label : String) (seed : Nat) :
    (w.poll.authority = auth → w.poll.ended = false →
      alookup w.options idx = none → now < w.poll.start_ts →
      (rustTrim label).isEmpty = false →
      (rustTrim label).utf8ByteSize ≤ MAX_LABEL →
      ¬ seed = hf (canonicalize label) →
      addOptionStep hf w now auth idx label seed =
        .error (.d21 .LabelSeedMismatch)) ∧
    (¬ seed = hf (canonicalize label) →
      ¬ addOptionStep hf w now auth idx label seed =
        .error (.d21 .LabelAlreadyUsed) ∧
      ∀ w', ¬ addOptionStep hf w now auth idx label seed = .ok w') := by
  constructor
  · intro hauth hend hidx hnow hne hlen hbad
    unfold addOptionStep
    rw [if_neg (not_not_intro hauth), if_neg (by simp [hend]),
      if_neg (by simp [hidx]), if_neg (not_not_intro hnow),
      if_neg (by simp [hne]), if_neg (not_not_intro hlen), if_pos hbad]
  · intro hbad
    constructor
    · intro hcontra
      unfold addOptionStep at hcontra
      split_ifs at hcontra <;> simp_all
    · intro w' hcontra
      unfold addOptionStep at hcontra
      split_ifs at hcontra <;> simp_all

/-- Witness for C7: with the constant hash `hf0` (every canonical label
hashes to 0), submitting `"red"` with commitment 1 on a world whose guard
for that label already exists fails with `LabelSeedMismatch`, not
`LabelAlreadyUsed`, and cannot succeed. -/
theorem label_seed_mismatch_precedence_witness :
    addOptionStep hf0 w6 0 7 1 "red" 1 = .error (.d21 .LabelSeedMismatch) ∧
    ¬ addOptionStep hf0 w6 0 7 1 "red" 1 = .error (.d21 .LabelAlreadyUsed) ∧
    ∀ w', ¬ addOptionStep hf0 w6 0 7 1 "red" 1 = .ok w' :=
  ⟨(label_seed_mismatch_precedence hf0 w6 0 7 1 "red" 1).1 (by decide)
      (by decide) (by decide) (by decide) (by decide) (by decide) (by decide),
    (label_seed_mismatch_precedence hf0 w6 0 7 1 "red" 1).2 (by decide)⟩

/-! ## Claim C8 -/

/-- **C8, counterexample.** At the maximal index `i = 65535` the claim
fails: the successful `addOption` call leaves `options_count = 65535`
(because the handler uses `index.saturating_add(1)`), not
`max(options_count_before, i + 1) = 65536`. -/
theorem options_count_not_always_index_plus_one :
    Except.map (fun w => w.poll.options_count)
      (addOptionStep hf0 w0 0 7 65535 "a" 0) = .ok 65535 ∧
    ¬ Except.map (fun w => w.poll.options_count)
      (addOptionStep hf0 w0 0 7 65535 "a" 0) =
        .ok (max w0.poll.options_count (65535 + 1)) := by decide

/-- **C8, amended.** For every successful `addOption` call with
caller-chosen index `i`, the poll's `options_count` afterwards equals
`max(options_count_before, saturate(i + 1))` where the increment saturates
at the `u16` maximum 65535 — so for every `i < 65535` it equals
`max(options_count_before, i + 1)`, and at `i = 65535` it equals
`max(options_count_before, 65535)`; indices may be non-contiguous and
out-of-order, and no other field of the poll changes. -/
theorem options_count_saturating_update (hf : String → Nat) (w : World)
    (now : Int) (auth : Pubkey) (idx : Nat) (label : String) (seed : Nat)
    (w' : World)
    (h : addOptionStep hf w now auth idx label seed = .ok w') :
    w'.poll.options_count = max w.poll.options_count (min (idx + 1) 65535) ∧
    (idx < 65535 → w'.poll.options_count = max w.poll.options_count (idx + 1)) ∧
    w'.poll = { w.poll with options_count := w'.poll.options_count } := by
  obtain ⟨-, -, -, -, -, -, -, -, hw'⟩ := addOptionStep_ok h
  subst hw'
  refine ⟨rfl, ?_, rfl⟩
  intro hidx
  have hmin : min (idx + 1) 65535 = idx + 1 := by omega
  simp [hmin]

/-- Witness for the amended C8: registering at the maximal index 65535 on
the fresh world `w0` raises `options_count` to 65535. -/
theorem options_count_saturating_update_witness :
    w9.poll.options_count = max w0.poll.options_count (min (65535 + 1) 65535) ∧
    ((65535 : Nat) < 65535 →
      w9.poll.options_count = max w0.poll.options_count (65535 + 1)) ∧
    w9.poll = { w0.poll with options_count := w9.poll.options_count } :=
  options_count_saturating_update hf0 w0 0 7 65535 "a" 0 w9 (by decide)

/-! ## Claim C9 -/

/-- **C9, counterexample.** The length checks of `initialize_poll` count
UTF-8 bytes (Rust `String::len`), not characters: a title of 33 two-byte
characters — 33 ≤ 64 characters but 66 > 64 bytes — is rejected with
`TitleTooLong`, although the claim says every title of at most 64
characters is accepted. -/
theorem title_bound_not_characters :
    cfgMulti.title.length = 33 ∧
    initializePoll cfgMulti 7 0 = .error (.d21 .TitleTooLong) := by decide

/-- **C9, amended.** `createPoll` accepts every title of at most 64 UTF-8
bytes and every description of at most 256 UTF-8 bytes (given the other
configuration checks pass), and fails with `TitleTooLong` (respectively
`DescriptionTooLong`) exactly when the title exceeds 64 bytes (after the
poll-id check; respectively the description exceeds 256 bytes after the
poll-id and title checks) — the bound is over UTF-8 bytes, so multi-byte
strings are measured by their encoding, not their character count. -/
theorem metadata_length_bounds_in_bytes (cfg : PollConfig) (auth : Pubkey)
    (now : Int) :
    (initializePoll cfg auth now = .error (.d21 .TitleTooLong) ↔
      ¬ cfg.poll_id = 0 ∧ ¬ cfg.title.utf8ByteSize ≤ MAX_TITLE) ∧
    (initializePoll cfg auth now = .error (.d21 .DescriptionTooLong) ↔
      ¬ cfg.poll_id = 0 ∧ cfg.title.utf8ByteSize ≤ MAX_TITLE ∧
      ¬ cfg.description.utf8ByteSize ≤ MAX_DESC) ∧
    (¬ cfg.poll_id = 0 → cfg.title.utf8ByteSize ≤ MAX_TITLE →
      cfg.description.utf8ByteSize ≤ MAX_DESC → 0 < cfg.plus_credits →
      cfg.start_ts < cfg.end_ts → now ≤ cfg.start_ts →
      initializePoll cfg auth now = .ok (Poll.from_config cfg auth)) := by
  unfold initializePoll
  split_ifs with h1 h2 h3 h4 h5 h6 <;> simp_all

/-- Witness for the amended C9: the in-bounds configuration `cfg0` is
accepted. -/
theorem metadata_length_bounds_in_bytes_witness :
    initializePoll cfg0 7 0 = .ok (Poll.from_config cfg0 7) :=
  (metadata_length_bounds_in_bytes cfg0 7 0).2.2 (by decide) (by decide)
    (by decide) (by decide) (by decide) (by decide)

/-! ## Claim C10 -/

/-- **C10.** `addOption` fails with `VotingClosed` whenever the poll's
`ended` flag is true and the caller is the owner — for every clock value
(including `now < start_ts`), every index, label and commitment: an
administratively ended poll accepts no new options. The `!ended`
constraint on the poll account is checked before the option account's
creation and the handler body, so no other precondition is reached. -/
theorem add_option_rejected_when_poll_ended (hf : String → Nat) (w : World)
    (now : Int) (auth : Pubkey) (idx : Nat) (label : String) (seed : Nat)
    (hauth : w.poll.authority = auth) (hended : w.poll.ended = true) :
    addOptionStep hf w now auth idx label seed = .error (.d21 .VotingClosed) := by
  unfold addOptionStep
  rw [if_neg (not_not_intro hauth), if_pos hended]

/-- Witness for C10: on the ended poll `w8`, the owner's attempt to add a
fresh option at `now = 0 < start_ts = 10` fails with `VotingClosed`. -/
theorem add_option_rejected_when_poll_ended_witness :
    addOptionStep hf0 w8 0 7 1 "blue" 0 = .error (.d21 .VotingClosed) :=
  add_option_rejected_when_poll_ended hf0 w8 0 7 1 "blue" 0 (by decide) (by decide)
